import Mathlib

/-!
Verification of the scoring engine and AI-response handling of the
Pitch_score application (src/app.py).

Python numbers are embedded as rationals (ℚ); the IEEE value
`float(inf)` that the metric calculator uses as a sentinel is embedded
by the explicit tagged type `ExtQ` below.  All arithmetic performed by
the program on form inputs is exact decimal arithmetic on small values,
so the rational embedding is faithful.
-/

/-- A rational extended with the positive-infinity sentinel that
`calculate_comprehensive_metrics` produces via `float(inf)`. -/
inductive ExtQ where
  | val (q : ℚ)
  | inf
deriving DecidableEq, Repr

/-- The numeric slice of the submitted form data (`form_data`) that
`calculate_comprehensive_metrics` reads.  In the program every one of
these keys is always present in the dict (set by the form widgets), and
the calculator reads them with `data.get(k, 0)`; the structure models
the dict restricted to the keys the calculator uses. -/
structure Proposal where
  cac : ℚ
  ltv : ℚ
  arr : ℚ
  current_customers : ℚ
  burn_rate : ℚ
  current_mrr : ℚ
  monthly_growth_rate : ℚ
  gross_margin : ℚ
  tam : ℚ
  som : ℚ
  team_size : ℚ
  technical_team : ℚ
  advisors_count : ℚ
  funding_raised : ℚ
  runway_months : ℚ
  churn_rate : ℚ
deriving DecidableEq, Repr

/-- The metrics dict returned by `calculate_comprehensive_metrics`. -/
structure Metrics where
  ltv_cac_ratio : ℚ
  payback_period : ExtQ
  burn_multiple : ExtQ
  efficiency_score : ℚ
  growth_score : ℚ
  market_score : ℚ
  team_score : ℚ
  traction_score : ℚ
  risk_score : ℚ
  overall_score : ℚ
deriving DecidableEq, Repr

/-- Embedding of `calculate_comprehensive_metrics` (src/app.py lines
231-325), non-exceptional path.  Every division the source performs is
guarded so that the divisor is nonzero, hence no exception can occur on
numeric inputs and the `except` branch of the source is dead for them. -/
def calculate_comprehensive_metrics (data : Proposal) : Metrics :=
  -- Unit Economics
  let ltv_cac_ratio : ℚ := if data.cac > 0 then data.ltv / data.cac else 0
  let payback_period : ExtQ :=
    if data.cac > 0 then
      (if data.arr > 0 then
        ExtQ.val (data.cac / (data.arr / 12 / max data.current_customers 1))
      else ExtQ.inf)
    else ExtQ.inf
  -- Burn Multiple
  let burn_multiple : ExtQ :=
    if data.burn_rate > 0 ∧ data.current_mrr > 0 then
      let net_burn := data.burn_rate - data.current_mrr
      if net_burn > 0 ∧ data.monthly_growth_rate > 0 then
        ExtQ.val (net_burn / (data.current_mrr * data.monthly_growth_rate / 100))
      else ExtQ.val 0
    else ExtQ.inf
  -- Efficiency Score (0-100)
  let ltv_cac_score : ℚ := if ltv_cac_ratio > 0 then min 100 ((ltv_cac_ratio / 3) * 50) else 0
  let margin_score : ℚ := data.gross_margin * 0.5
  let efficiency_score : ℚ := min 100 (ltv_cac_score + margin_score)
  -- Growth Score (0-100)
  let growth_rate := data.monthly_growth_rate
  let growth_score : ℚ :=
    if growth_rate ≥ 20 then 100
    else if growth_rate ≥ 10 then 80
    else if growth_rate ≥ 5 then 60
    else growth_rate * 10
  -- Market Score (0-100)
  let tam := data.tam
  let market_size_score : ℚ :=
    if tam ≥ 10000 then 100
    else if tam ≥ 1000 then 80
    else if tam ≥ 100 then 60
    else 40
  let capture_score : ℚ :=
    if tam > 0 ∧ data.som > 0 then
      min 100 ((data.som / tam) * 100 * 20)
    else 50
  let market_score : ℚ := (market_size_score + capture_score) / 2
  -- Team Score (0-100)
  let team_size_score : ℚ := min 100 (data.team_size * 5)
  let technical_ratio : ℚ := (data.technical_team / max data.team_size 1) * 100
  let advisor_score : ℚ := min 100 (data.advisors_count * 20)
  let team_score : ℚ := (team_size_score + technical_ratio + advisor_score) / 3
  -- Traction Score (0-100)
  let customer_score : ℚ := min 100 (data.current_customers / 10)
  let revenue_score : ℚ := min 100 ((data.arr / 100000) * 100)
  let funding_score : ℚ := min 100 ((data.funding_raised / 1000000) * 50)
  let traction_score : ℚ := (customer_score + revenue_score + funding_score) / 3
  -- Risk Score (0-100, higher is better)
  let runway_score : ℚ := min 100 ((data.runway_months / 18) * 100)
  let churn_score : ℚ := max 0 (100 - data.churn_rate * 10)
  let risk_score : ℚ := (runway_score + churn_score) / 2
  -- Overall Investment Score
  let overall_score : ℚ :=
    efficiency_score * 0.20 +
    growth_score * 0.20 +
    market_score * 0.15 +
    team_score * 0.15 +
    traction_score * 0.20 +
    risk_score * 0.10
  { ltv_cac_ratio := ltv_cac_ratio
    payback_period := payback_period
    burn_multiple := burn_multiple
    efficiency_score := efficiency_score
    growth_score := growth_score
    market_score := market_score
    team_score := team_score
    traction_score := traction_score
    risk_score := risk_score
    overall_score := overall_score }

/-- A proposal with non-negative fields (the form enforces this) in which
the technical head-count exceeds the team size: `team_size = 1`,
`technical_team = 10`, all other numeric fields `0`. -/
def teamOverflowProposal : Proposal :=
  { cac := 0, ltv := 0, arr := 0, current_customers := 0, burn_rate := 0,
    current_mrr := 0, monthly_growth_rate := 0, gross_margin := 0,
    tam := 0, som := 0, team_size := 1, technical_team := 10,
    advisors_count := 0, funding_raised := 0, runway_months := 0,
    churn_rate := 0 }

/-- A proposal exercising the burn-multiple main branch:
`burn_rate = 5`, `current_mrr = 2`, `monthly_growth_rate = 10`. -/
def burnExampleProposal : Proposal :=
  { cac := 0, ltv := 0, arr := 0, current_customers := 0, burn_rate := 5,
    current_mrr := 2, monthly_growth_rate := 10, gross_margin := 0,
    tam := 0, som := 0, team_size := 1, technical_team := 0,
    advisors_count := 0, funding_raised := 0, runway_months := 0,
    churn_rate := 0 }

/-- A proposal with every numeric field zero except `team_size = 1`
(the form minimum). -/
def zeroProposal : Proposal :=
  { cac := 0, ltv := 0, arr := 0, current_customers := 0, burn_rate := 0,
    current_mrr := 0, monthly_growth_rate := 0, gross_margin := 0,
    tam := 0, som := 0, team_size := 1, technical_team := 0,
    advisors_count := 0, funding_raised := 0, runway_months := 0,
    churn_rate := 0 }

/-- One action item of the recommendations block (src/app.py lines
1636-1672).  The `issue` string of the source interpolates the same numeric
values the condition tests into a display message; that presentation
string is omitted from the model, and the `area` and `action` literals
are kept verbatim. -/
structure Recommendation where
  area : String
  action : String
deriving DecidableEq, Repr

/-- Embedding of the recommendations block of the form-submission
handler (src/app.py lines 1636-1672): five benchmark checks evaluated
in a fixed order, each appending at most one item. -/
def recommendationsFor (d : Proposal) : List Recommendation :=
  let m := calculate_comprehensive_metrics d
  (if m.ltv_cac_ratio < 3 then
    [{ area := "Unit Economics",
       action := "Focus on improving customer retention and reducing acquisition costs" }]
   else []) ++
  (if d.runway_months < 18 then
    [{ area := "Financial Health",
       action := "Extend runway to 18-24 months through fundraising or burn reduction" }]
   else []) ++
  (if d.gross_margin < 70 then
    [{ area := "Business Model",
       action := "Optimize pricing strategy and reduce COGS to improve margins" }]
   else []) ++
  (if d.monthly_growth_rate < 10 then
    [{ area := "Growth",
       action := "Accelerate growth through improved sales/marketing efficiency" }]
   else []) ++
  (if d.churn_rate > 5 then
    [{ area := "Customer Retention",
       action := "Implement customer success initiatives to reduce churn below 5%" }]
   else [])

/-- C1: the claim asserts every sub-score stays in [0,100] even when
`technical_team` exceeds `team_size`.  The code comment at the team
block says "Team Score (0-100)", but the `technical_ratio` summand is
the only component of any sub-score that is never clamped, so with
`team_size = 1`, `technical_team = 10` and every other field `0` the
team score evaluates to 335 > 100: the code contradicts its own stated
bound. -/
theorem c1_team_score_exceeds_bound :
    (calculate_comprehensive_metrics teamOverflowProposal).team_score = 335 ∧
    100 < (calculate_comprehensive_metrics teamOverflowProposal).team_score := by
  constructor <;> norm_num [calculate_comprehensive_metrics, teamOverflowProposal]

/-- C2: the burn multiple follows the three-way branch of
src/app.py lines 244-252: positive net burn with positive growth gives
the quotient, non-positive net burn or zero growth (with both burn rate
and MRR positive) gives 0, and zero burn rate or zero MRR gives the
infinity sentinel. -/
theorem c2_burn_multiple_branches (d : Proposal) :
    (d.burn_rate > 0 → d.current_mrr > 0 → d.burn_rate - d.current_mrr > 0 →
      d.monthly_growth_rate > 0 →
      (calculate_comprehensive_metrics d).burn_multiple =
        ExtQ.val ((d.burn_rate - d.current_mrr) /
          (d.current_mrr * d.monthly_growth_rate / 100))) ∧
    (d.burn_rate > 0 → d.current_mrr > 0 →
      (d.burn_rate - d.current_mrr ≤ 0 ∨ d.monthly_growth_rate = 0) →
      (calculate_comprehensive_metrics d).burn_multiple = ExtQ.val 0) ∧
    ((d.burn_rate = 0 ∨ d.current_mrr = 0) →
      (calculate_comprehensive_metrics d).burn_multiple = ExtQ.inf) := by
  refine ⟨?_, ?_, ?_⟩
  · intro h1 h2 h3 h4
    simp [calculate_comprehensive_metrics, h1, h2, h3, h4]
  · intro h1 h2 h3
    rcases h3 with h3 | h3
    · simp [calculate_comprehensive_metrics, h1, h2, not_lt.mpr h3]
    · simp [calculate_comprehensive_metrics, h1, h2, h3]
  · intro h
    rcases h with h | h <;> simp [calculate_comprehensive_metrics, h]

/-- C2 witness: at `burnExampleProposal` the first branch applies and
the burn multiple is `(5-2) / (2*10/100) = 15`. -/
theorem c2_burn_multiple_witness :
    (calculate_comprehensive_metrics burnExampleProposal).burn_multiple = ExtQ.val 15 := by
  have h := (c2_burn_multiple_branches burnExampleProposal).1
    (by norm_num [burnExampleProposal]) (by norm_num [burnExampleProposal])
    (by norm_num [burnExampleProposal]) (by norm_num [burnExampleProposal])
  rw [h]
  norm_num [burnExampleProposal]

/-- C6: with `cac ≤ 0` the calculator returns `ltv_cac_ratio = 0` and
an infinite payback period regardless of the other fields, and with
`cac > 0` but `arr = 0` the payback period is also infinite
(src/app.py lines 236-242). -/
theorem c6_cac_guard (d : Proposal) :
    (d.cac ≤ 0 →
      (calculate_comprehensive_metrics d).ltv_cac_ratio = 0 ∧
      (calculate_comprehensive_metrics d).payback_period = ExtQ.inf) ∧
    (d.cac > 0 → d.arr = 0 →
      (calculate_comprehensive_metrics d).payback_period = ExtQ.inf) := by
  constructor
  · intro h
    constructor <;> simp [calculate_comprehensive_metrics, not_lt.mpr h]
  · intro h1 h2
    simp [calculate_comprehensive_metrics, h1, h2]

/-- C6 witness: at the all-zero proposal (`cac = 0`) the ratio is 0 and
the payback period is the infinity sentinel. -/
theorem c6_cac_guard_witness :
    (calculate_comprehensive_metrics zeroProposal).ltv_cac_ratio = 0 ∧
    (calculate_comprehensive_metrics zeroProposal).payback_period = ExtQ.inf :=
  (c6_cac_guard zeroProposal).1 (by norm_num [zeroProposal])

/-- C7: the overall score is exactly the branch-free linear combination
of the six sub-scores with weights 0.20/0.20/0.15/0.15/0.20/0.10, and
the weights sum to exactly 1 (src/app.py lines 308-325). -/
theorem c7_overall_score_linear (d : Proposal) :
    (calculate_comprehensive_metrics d).overall_score =
      (calculate_comprehensive_metrics d).efficiency_score * 0.20 +
      (calculate_comprehensive_metrics d).growth_score * 0.20 +
      (calculate_comprehensive_metrics d).market_score * 0.15 +
      (calculate_comprehensive_metrics d).team_score * 0.15 +
      (calculate_comprehensive_metrics d).traction_score * 0.20 +
      (calculate_comprehensive_metrics d).risk_score * 0.10 ∧
    (0.20 + 0.20 + 0.15 + 0.15 + 0.20 + 0.10 : ℚ) = 1 := by
  constructor
  · simp [calculate_comprehensive_metrics]
  · norm_num

/-- C3: the recommendation list follows the fixed five-check sequence:
its areas form a sublist of the fixed ordered area list, it has at most
five entries, it is empty exactly when no benchmark condition holds,
and each area is present exactly when its condition holds. -/
theorem c3_recommendations_order (d : Proposal) :
    ((recommendationsFor d).map Recommendation.area).Sublist
      ["Unit Economics", "Financial Health", "Business Model", "Growth",
       "Customer Retention"] ∧
    (recommendationsFor d).length ≤ 5 ∧
    (recommendationsFor d = [] ↔
      ¬((calculate_comprehensive_metrics d).ltv_cac_ratio < 3) ∧
      ¬(d.runway_months < 18) ∧ ¬(d.gross_margin < 70) ∧
      ¬(d.monthly_growth_rate < 10) ∧ ¬(d.churn_rate > 5)) ∧
    ("Unit Economics" ∈ (recommendationsFor d).map Recommendation.area ↔
      (calculate_comprehensive_metrics d).ltv_cac_ratio < 3) ∧
    ("Financial Health" ∈ (recommendationsFor d).map Recommendation.area ↔
      d.runway_months < 18) ∧
    ("Business Model" ∈ (recommendationsFor d).map Recommendation.area ↔
      d.gross_margin < 70) ∧
    ("Growth" ∈ (recommendationsFor d).map Recommendation.area ↔
      d.monthly_growth_rate < 10) ∧
    ("Customer Retention" ∈ (recommendationsFor d).map Recommendation.area ↔
      d.churn_rate > 5) := by
  simp only [recommendationsFor]
  split_ifs with h1 h2 h3 h4 h5 <;>
    exact ⟨by decide, by decide, by simp_all, by simp_all, by simp_all, by simp_all,
      by simp_all, by simp_all⟩

/-- A value stored in `form_data` at one of the required-field keys:
the form stores strings for the free-text fields and numbers for the
numeric fields. -/
inductive FormValue where
  | str (s : String)
  | num (q : ℚ)
deriving DecidableEq, Repr

/-- The submitted `form_data` dict, restricted to an association list
(keys are unique in the source dict; `lookup` takes the first match). -/
def FormData : Type := List (String × FormValue)

/-- Python truthiness of a form value: the empty string and the number
0 are falsy. -/
def pyTruthy : FormValue → Bool
  | .str s => s != ""
  | .num q => q != 0

/-- Truthiness of `form_data.get(field)`: an absent key yields `None`,
which is falsy. -/
def truthyOpt : Option FormValue → Bool
  | none => false
  | some v => pyTruthy v

/-- `form_data.get(field)`. -/
def fdGet (fd : FormData) (k : String) : Option FormValue :=
  List.lookup k fd

/-- The `required_fields` list of the form-submission block
(src/app.py lines 1318-1321), verbatim. -/
def required_fields : List String :=
  ["company_name", "problem_solution", "market_info", "business_model_desc",
   "uniqueness", "team_experience", "team_structure", "funding_seeking",
   "use_of_funds", "cac", "ltv", "burn_rate", "runway_months",
   "competitors", "competitive_advantage", "customer_acquisition", "other_risks"]

/-- `missing_fields = [field for field in required_fields if not
form_data.get(field)]` (src/app.py line 1323). -/
def missing_fields (fd : FormData) : List String :=
  required_fields.filter (fun f => !truthyOpt (fdGet fd f))

/-- The numeric read `data.get(k, 0)` that the metric calculator
performs on the submitted dict. -/
def getNumD (fd : FormData) (k : String) : ℚ :=
  match fdGet fd k with
  | some (.num q) => q
  | _ => 0

/-- The proposal record the metric calculator sees for a submitted
form-data dict. -/
def proposalOfForm (fd : FormData) : Proposal :=
  { cac := getNumD fd "cac", ltv := getNumD fd "ltv", arr := getNumD fd "arr",
    current_customers := getNumD fd "current_customers",
    burn_rate := getNumD fd "burn_rate", current_mrr := getNumD fd "current_mrr",
    monthly_growth_rate := getNumD fd "monthly_growth_rate",
    gross_margin := getNumD fd "gross_margin", tam := getNumD fd "tam",
    som := getNumD fd "som", team_size := getNumD fd "team_size",
    technical_team := getNumD fd "technical_team",
    advisors_count := getNumD fd "advisors_count",
    funding_raised := getNumD fd "funding_raised",
    runway_months := getNumD fd "runway_months",
    churn_rate := getNumD fd "churn_rate" }

/-- The validation gate of the submission handler (src/app.py lines
1323-1330): when `missing_fields` is non-empty an error is shown and no
scoring runs; otherwise the metrics are computed. -/
def submissionScoring (fd : FormData) : Option Metrics :=
  if missing_fields fd = [] then
    some (calculate_comprehensive_metrics (proposalOfForm fd))
  else none

/-- A submission whose only filled field is `cac = 0`. -/
def cacZeroForm : FormData := [("cac", FormValue.num 0)]

/-- C10: required-field validation uses Python truthiness, so a
required numeric field equal to 0 (cac, ltv, burn_rate, runway_months
or funding_seeking) is reported as missing and no scoring is
performed, even though 0 is a legal value of those form widgets. -/
theorem c10_zero_numeric_field_reported_missing (fd : FormData) (f : String)
    (hf : f ∈ ["cac", "ltv", "burn_rate", "runway_months", "funding_seeking"])
    (hv : fdGet fd f = some (FormValue.num 0)) :
    f ∈ missing_fields fd ∧ submissionScoring fd = none := by
  have hreq : f ∈ required_fields := by
    fin_cases hf <;> decide
  have hmem : f ∈ missing_fields fd := by
    refine List.mem_filter.mpr ⟨hreq, ?_⟩
    simp [truthyOpt, pyTruthy, hv]
  refine ⟨hmem, ?_⟩
  have hne : missing_fields fd ≠ [] := List.ne_nil_of_mem hmem
  simp [submissionScoring, hne]

/-- C10 witness: the submission `{cac: 0}` has `cac` in its
missing-fields list and is not scored. -/
theorem c10_zero_numeric_field_witness :
    ("cac" ∈ ["cac", "ltv", "burn_rate", "runway_months", "funding_seeking"] ∧
      fdGet cacZeroForm "cac" = some (FormValue.num 0)) ∧
    ("cac" ∈ missing_fields cacZeroForm ∧ submissionScoring cacZeroForm = none) :=
  ⟨⟨by decide, by decide⟩,
    c10_zero_numeric_field_reported_missing cacZeroForm "cac" (by decide) (by decide)⟩

/-! ### AI-response recovery pipeline (src/app.py lines 455-473)

The cleanup steps of `generate_ai_insights` are pure string surgery;
they are embedded over `List Char`.  The backtick character is written
as its code point to keep source files plain. -/

/-- The backtick character. -/
def bq : Char := '\x60'

/-- The triple-backtick fence marker. -/
def fence : List Char := [bq, bq, bq]

/-- The fence-with-language-tag marker the code searches for first. -/
def tagJson : List Char := fence ++ ['j', 's', 'o', 'n']

/-- Python substring containment `sep in s` for a non-empty separator:
some suffix of `s` has `sep` as a prefix. -/
def hasSub (sep : List Char) : List Char → Bool
  | [] => sep.isPrefixOf []
  | c :: cs => sep.isPrefixOf (c :: cs) || hasSub sep cs

/-- Python `s.split(sep)` for a non-empty separator: the maximal chunks
between non-overlapping, leftmost-first occurrences of `sep`. -/
def splitOnSub (sep : List Char) : List Char → List (List Char)
  | [] => [[]]
  | c :: cs =>
    if h : sep.isPrefixOf (c :: cs) ∧ sep ≠ [] then
      [] :: splitOnSub sep ((c :: cs).drop sep.length)
    else
      match splitOnSub sep cs with
      | [] => [[c]]
      | p :: ps => (c :: p) :: ps
termination_by s => s.length
decreasing_by
  · have hlen : 0 < sep.length := List.length_pos.mpr h.2
    simp only [List.length_drop, List.length_cons]
    omega
  · simp only [List.length_cons]
    omega

/-- Python `s.strip()`: drop whitespace from both ends. -/
def pyStrip (l : List Char) : List Char :=
  ((l.dropWhile Char.isWhitespace).reverse.dropWhile Char.isWhitespace).reverse

/-- src/app.py lines 465-468: if the text does not start with a left
brace, drop everything before the first left brace when one exists. -/
def fixStart (t : List Char) : List Char :=
  if t.head? = some '\x7b' then t
  else if '\x7b' ∈ t then t.dropWhile (fun c => c != '\x7b') else t

/-- src/app.py lines 470-473: when the text ends with a right brace,
keep everything up to the last right brace inclusive (`t[:t.rfind + 1]`,
which under the guard is the whole text). -/
def fixEnd (t : List Char) : List Char :=
  if t.getLast? = some '\x7d' then
    (t.reverse.dropWhile (fun c => c != '\x7d')).reverse
  else t

/-- src/app.py lines 458-463: strip a fenced block, trying the
json-tagged fence first. -/
def stripFencedBlock (t : List Char) : List Char :=
  if hasSub tagJson t then
    pyStrip ((splitOnSub fence ((splitOnSub tagJson t).getD 1 [])).getD 0 [])
  else if hasSub fence t then
    pyStrip ((splitOnSub fence ((splitOnSub fence t).getD 1 [])).getD 0 [])
  else t

/-- The complete recovery pipeline applied to the AI response text
before the strict JSON parse. -/
def extractCand (t : List Char) : List Char :=
  fixEnd (fixStart (stripFencedBlock t))

theorem splitOnSub_ne_nil (sep s : List Char) : splitOnSub sep s ≠ [] := by
  cases s with
  | nil => simp [splitOnSub]
  | cons c cs =>
    rw [splitOnSub]
    split
    · simp
    · split <;> simp

theorem hasSub_of_suffix_true (sep a b : List Char) (h : hasSub sep b = true) :
    hasSub sep (a ++ b) = true := by
  induction a with
  | nil => simpa using h
  | cons c a ih => simp [hasSub, ih]

theorem hasSub_self_append (sep b : List Char) : hasSub sep (sep ++ b) = true := by
  cases hsb : sep ++ b with
  | nil => simp [hasSub, List.append_eq_nil.mp hsb]
  | cons c cs =>
    have hpref : sep.isPrefixOf (c :: cs) = true := by
      rw [← hsb]
      exact List.isPrefixOf_iff_prefix.mpr (List.prefix_append sep b)
    simp [hasSub, hpref]

theorem isPrefixOf_bq_cons_false (l b : List Char) (hb : bq ∉ b) :
    (bq :: l).isPrefixOf b = false := by
  cases b with
  | nil => simp
  | cons c cs =>
    have hc : (bq == c) = false := by
      simp only [beq_eq_false_iff_ne, ne_eq]
      intro h
      exact hb (by simp [h])
    simp [List.isPrefixOf_cons₂, hc]

theorem hasSub_cons_of_ne_bq (sep' : List Char) (c : Char) (s : List Char) (hc : c ≠ bq) :
    hasSub (bq :: sep') (c :: s) = hasSub (bq :: sep') s := by
  have h : (bq == c) = false := by
    simp only [beq_eq_false_iff_ne, ne_eq]
    exact fun h => hc h.symm
  simp [hasSub, List.isPrefixOf_cons₂, h]

theorem hasSub_eq_false_of_bq_free (sep' s : List Char) (hs : bq ∉ s) :
    hasSub (bq :: sep') s = false := by
  induction s with
  | nil => simp [hasSub]
  | cons c cs ih =>
    have hc : c ≠ bq := fun h => hs (by simp [h])
    rw [hasSub_cons_of_ne_bq _ _ _ hc]
    exact ih (fun h => hs (List.mem_cons_of_mem _ h))

theorem hasSub_append_bq_free (sep' a b : List Char) (ha : bq ∉ a) :
    hasSub (bq :: sep') (a ++ b) = hasSub (bq :: sep') b := by
  induction a with
  | nil => simp
  | cons c a ih =>
    have hc : c ≠ bq := fun h => ha (by simp [h])
    rw [List.cons_append, hasSub_cons_of_ne_bq _ _ _ hc]
    exact ih (fun h => ha (List.mem_cons_of_mem _ h))

theorem splitOnSub_of_not_hasSub (sep s : List Char) (h : hasSub sep s = false) :
    splitOnSub sep s = [s] := by
  induction s with
  | nil => simp [splitOnSub]
  | cons c cs ih =>
    have h1 : sep.isPrefixOf (c :: cs) = false := by
      by_contra hcon
      simp only [Bool.not_eq_false] at hcon
      simp [hasSub, hcon] at h
    have h2 : hasSub sep cs = false := by
      by_contra hcon
      simp only [Bool.not_eq_false] at hcon
      simp [hasSub, hcon] at h
    rw [splitOnSub]
    rw [dif_neg (by simp [h1])]
    rw [ih h2]

theorem splitOnSub_cons_not_pref (sep : List Char) (c : Char) (s : List Char)
    (h : sep.isPrefixOf (c :: s) = false) :
    splitOnSub sep (c :: s) =
      (c :: (splitOnSub sep s).headD []) :: (splitOnSub sep s).tail := by
  rw [splitOnSub]
  rw [dif_neg (by simp [h])]
  cases hsp : splitOnSub sep s with
  | nil => exact absurd hsp (splitOnSub_ne_nil sep s)
  | cons p ps => simp

theorem splitOnSub_append_bq_free (sep' a x : List Char) (ha : bq ∉ a) :
    splitOnSub (bq :: sep') (a ++ x) =
      (a ++ (splitOnSub (bq :: sep') x).headD []) :: (splitOnSub (bq :: sep') x).tail := by
  induction a with
  | nil =>
    cases hsp : splitOnSub (bq :: sep') x with
    | nil => exact absurd hsp (splitOnSub_ne_nil _ x)
    | cons p ps => simp [hsp]
  | cons c a ih =>
    have hc : c ≠ bq := fun h => ha (by simp [h])
    have hpref : (bq :: sep').isPrefixOf (c :: (a ++ x)) = false := by
      have h : (bq == c) = false := by
        simp only [beq_eq_false_iff_ne, ne_eq]
        exact fun h => hc h.symm
      simp [List.isPrefixOf_cons₂, h]
    rw [List.cons_append, splitOnSub_cons_not_pref _ _ _ hpref,
      ih (fun h => ha (List.mem_cons_of_mem _ h))]
    simp

theorem splitOnSub_self_append (sep x : List Char) (hsep : sep ≠ []) :
    splitOnSub sep (sep ++ x) = [] :: splitOnSub sep x := by
  cases sep with
  | nil => contradiction
  | cons c cs =>
    have hpref : (c :: cs).isPrefixOf ((c :: cs) ++ x) = true :=
      List.isPrefixOf_iff_prefix.mpr (List.prefix_append _ x)
    rw [show (c :: cs) ++ x = c :: (cs ++ x) from rfl] at hpref ⊢
    rw [splitOnSub]
    rw [dif_pos ⟨hpref, by simp⟩]
    congr 1
    rw [show c :: (cs ++ x) = (c :: cs) ++ x from rfl, List.drop_left]

theorem hasSub_tag_append (a b : List Char) (ha : bq ∉ a) :
    hasSub tagJson (a ++ b) = hasSub tagJson b :=
  hasSub_append_bq_free ([bq, bq] ++ ['j', 's', 'o', 'n']) a b ha

theorem hasSub_fence_append (a b : List Char) (ha : bq ∉ a) :
    hasSub fence (a ++ b) = hasSub fence b :=
  hasSub_append_bq_free [bq, bq] a b ha

theorem hasSub_tag_false_of_bq_free (b : List Char) (hb : bq ∉ b) :
    hasSub tagJson b = false :=
  hasSub_eq_false_of_bq_free ([bq, bq] ++ ['j', 's', 'o', 'n']) b hb

theorem hasSub_fence_false_of_bq_free (b : List Char) (hb : bq ∉ b) :
    hasSub fence b = false :=
  hasSub_eq_false_of_bq_free [bq, bq] b hb

theorem splitOnSub_tag_append (a x : List Char) (ha : bq ∉ a) :
    splitOnSub tagJson (a ++ x) =
      (a ++ (splitOnSub tagJson x).headD []) :: (splitOnSub tagJson x).tail :=
  splitOnSub_append_bq_free ([bq, bq] ++ ['j', 's', 'o', 'n']) a x ha

theorem splitOnSub_fence_append (a x : List Char) (ha : bq ∉ a) :
    splitOnSub fence (a ++ x) =
      (a ++ (splitOnSub fence x).headD []) :: (splitOnSub fence x).tail :=
  splitOnSub_append_bq_free [bq, bq] a x ha

/-- No occurrence of the tagged fence marker can start at or inside a
plain fence that is followed by a newline. -/
theorem hasSub_tag_fence_newline (b : List Char) :
    hasSub tagJson (fence ++ '\n' :: b) = hasSub tagJson b := by
  have h1 : (bq == '\n') = false := by decide
  have h2 : ('j' == '\n') = false := by decide
  simp [hasSub, tagJson, fence, List.isPrefixOf_cons₂, h1, h2]

theorem bq_notMem_wrapA (s : List Char) (hs : bq ∉ s) : bq ∉ '\n' :: (s ++ ['\n']) := by
  simp only [List.mem_cons, List.mem_append, List.mem_singleton]
  push_neg
  exact ⟨by decide, hs, by decide⟩

theorem bq_notMem_newline_cons (post : List Char) (hpost : bq ∉ post) : bq ∉ '\n' :: post := by
  simp only [List.mem_cons]
  push_neg
  exact ⟨by decide, hpost⟩

/-- The shape of the fenced body: splitting on the plain fence cuts the
body exactly at the closing fence. -/
theorem splitOnSub_fence_body (s post : List Char) (hs : bq ∉ s) (hpost : bq ∉ post) :
    splitOnSub fence ('\n' :: (s ++ '\n' :: (fence ++ '\n' :: post))) =
      ['\n' :: (s ++ ['\n']), '\n' :: post] := by
  have hshape : '\n' :: (s ++ '\n' :: (fence ++ '\n' :: post)) =
      ('\n' :: (s ++ ['\n'])) ++ (fence ++ '\n' :: post) := by
    simp
  rw [hshape, splitOnSub_fence_append _ _ (bq_notMem_wrapA s hs),
    splitOnSub_self_append fence ('\n' :: post) (by simp [fence]),
    splitOnSub_of_not_hasSub fence ('\n' :: post)
      (hasSub_fence_false_of_bq_free _ (bq_notMem_newline_cons post hpost))]
  simp

/-- The tagged fence marker does not occur in the fenced body. -/
theorem hasSub_tag_body (s post : List Char) (hs : bq ∉ s) (hpost : bq ∉ post) :
    hasSub tagJson ('\n' :: (s ++ '\n' :: (fence ++ '\n' :: post))) = false := by
  have hshape : '\n' :: (s ++ '\n' :: (fence ++ '\n' :: post)) =
      ('\n' :: (s ++ ['\n'])) ++ (fence ++ '\n' :: post) := by
    simp
  rw [hshape, hasSub_tag_append _ _ (bq_notMem_wrapA s hs), hasSub_tag_fence_newline]
  exact hasSub_tag_false_of_bq_free post hpost

/-- Stripping a newline-wrapped brace-delimited payload returns the
payload. -/
theorem pyStrip_wrap (s : List Char) (hh : s.head? = some '\x7b')
    (hl : s.getLast? = some '\x7d') :
    pyStrip ('\n' :: (s ++ ['\n'])) = s := by
  obtain ⟨s', rfl⟩ : ∃ s', s = '\x7b' :: s' := by
    cases s with
    | nil => simp at hh
    | cons a t =>
      refine ⟨t, ?_⟩
      simp only [List.head?_cons, Option.some.injEq] at hh
      rw [hh]
  obtain ⟨r, hr⟩ : ∃ r, ('\x7b' :: s').reverse = '\x7d' :: r := by
    cases hrev : ('\x7b' :: s').reverse with
    | nil => simp at hrev
    | cons a t =>
      refine ⟨t, ?_⟩
      have := List.head?_reverse ('\x7b' :: s')
      rw [hrev, hl] at this
      simp only [List.head?_cons, Option.some.injEq] at this
      rw [this]
  unfold pyStrip
  rw [show ('\n' :: (('\x7b' :: s') ++ ['\n'])).dropWhile Char.isWhitespace =
        ('\x7b' :: s') ++ ['\n'] from by
      simp [List.dropWhile_cons]]
  rw [List.reverse_append]
  rw [show (['\n'].reverse ++ ('\x7b' :: s').reverse).dropWhile Char.isWhitespace =
        ('\x7b' :: s').reverse from by
      rw [hr]; simp [List.dropWhile_cons]]
  exact List.reverse_reverse _

theorem fixStart_of_head (s : List Char) (hh : s.head? = some '\x7b') : fixStart s = s := by
  unfold fixStart
  rw [if_pos hh]

theorem fixEnd_of_getLast (s : List Char) (hl : s.getLast? = some '\x7d') : fixEnd s = s := by
  obtain ⟨r, hr⟩ : ∃ r, s.reverse = '\x7d' :: r := by
    cases hrev : s.reverse with
    | nil =>
      rw [List.reverse_eq_nil_iff.mp hrev] at hl
      simp at hl
    | cons a t =>
      refine ⟨t, ?_⟩
      have := List.head?_reverse s
      rw [hrev, hl] at this
      simp only [List.head?_cons, Option.some.injEq] at this
      rw [this]
  unfold fixEnd
  rw [if_pos hl, hr]
  rw [show ('\x7d' :: r).dropWhile (fun c => c != '\x7d') = '\x7d' :: r from by
      simp [List.dropWhile_cons]]
  rw [← hr, List.reverse_reverse]

theorem bq_notMem_append_newline (s : List Char) (hs : bq ∉ s) : bq ∉ s ++ ['\n'] := by
  simp only [List.mem_append, List.mem_singleton]
  push_neg
  exact ⟨hs, by decide⟩

/-- Recovery of a json-tagged fenced payload: leading and trailing
prose and the fences are removed and the payload is returned intact. -/
theorem extractCand_tag_case (pre post s : List Char)
    (hpre : bq ∉ pre) (hpost : bq ∉ post) (hs : bq ∉ s)
    (hh : s.head? = some '\x7b') (hl : s.getLast? = some '\x7d') :
    extractCand (pre ++ tagJson ++ '\n' :: (s ++ '\n' :: (fence ++ '\n' :: post))) = s := by
  have hTag : hasSub tagJson (pre ++ tagJson ++ '\n' :: (s ++ '\n' :: (fence ++ '\n' :: post))) = true := by
    rw [List.append_assoc, hasSub_tag_append pre _ hpre]
    exact hasSub_self_append tagJson _
  have hsplitTag : splitOnSub tagJson (pre ++ tagJson ++ '\n' :: (s ++ '\n' :: (fence ++ '\n' :: post))) =
      [pre, '\n' :: (s ++ '\n' :: (fence ++ '\n' :: post))] := by
    rw [List.append_assoc, splitOnSub_tag_append pre _ hpre,
      splitOnSub_self_append tagJson _ (by simp [tagJson, fence]),
      splitOnSub_of_not_hasSub tagJson _ (hasSub_tag_body s post hs hpost)]
    simp
  unfold extractCand stripFencedBlock
  rw [if_pos hTag, hsplitTag]
  simp only [List.getD_cons_succ, List.getD_cons_zero]
  rw [splitOnSub_fence_body s post hs hpost]
  simp only [List.getD_cons_zero]
  rw [pyStrip_wrap s hh hl, fixStart_of_head s hh, fixEnd_of_getLast s hl]

/-- Recovery of an untagged fenced payload. -/
theorem extractCand_fence_case (pre post s : List Char)
    (hpre : bq ∉ pre) (hpost : bq ∉ post) (hs : bq ∉ s)
    (hh : s.head? = some '\x7b') (hl : s.getLast? = some '\x7d') :
    extractCand (pre ++ fence ++ '\n' :: (s ++ '\n' :: (fence ++ '\n' :: post))) = s := by
  have hNoTag : hasSub tagJson (pre ++ fence ++ '\n' :: (s ++ '\n' :: (fence ++ '\n' :: post))) = false := by
    rw [List.append_assoc, hasSub_tag_append pre _ hpre, hasSub_tag_fence_newline,
      show s ++ '\n' :: (fence ++ '\n' :: post) = (s ++ ['\n']) ++ (fence ++ '\n' :: post) from by simp,
      hasSub_tag_append _ _ (bq_notMem_append_newline s hs), hasSub_tag_fence_newline]
    exact hasSub_tag_false_of_bq_free post hpost
  have hFence : hasSub fence (pre ++ fence ++ '\n' :: (s ++ '\n' :: (fence ++ '\n' :: post))) = true := by
    rw [List.append_assoc, hasSub_fence_append pre _ hpre]
    exact hasSub_self_append fence _
  have hsplitFence : splitOnSub fence (pre ++ fence ++ '\n' :: (s ++ '\n' :: (fence ++ '\n' :: post))) =
      [pre, '\n' :: (s ++ ['\n']), '\n' :: post] := by
    rw [List.append_assoc, splitOnSub_fence_append pre _ hpre,
      splitOnSub_self_append fence _ (by simp [fence]),
      splitOnSub_fence_body s post hs hpost]
    simp
  unfold extractCand stripFencedBlock
  rw [if_neg (by rw [hNoTag]; simp), if_pos hFence, hsplitFence]
  simp only [List.getD_cons_succ, List.getD_cons_zero]
  rw [splitOnSub_of_not_hasSub fence _ (hasSub_fence_false_of_bq_free _ (bq_notMem_wrapA s hs))]
  simp only [List.getD_cons_zero]
  rw [pyStrip_wrap s hh hl, fixStart_of_head s hh, fixEnd_of_getLast s hl]

/-- Leading prose of the counterexample response. -/
def preBad : List Char := ['H', 'i', ':', ' ']

/-- Trailing prose of the counterexample response. -/
def postBad : List Char := ['B', 'y', 'e', '.']

/-- The serialization of the well-formed JSON object whose single
string value contains a triple backtick. -/
def sBad : List Char :=
  ['\x7b', '\x22', 'a', '\x22', ':', ' ', '\x22', bq, bq, bq, '\x22', '\x7d']

/-- The counterexample AI response: `sBad` wrapped in a json-tagged
code fence with leading and trailing prose. -/
def respBad : List Char :=
  preBad ++ tagJson ++ '\n' :: (sBad ++ '\n' :: (fence ++ '\n' :: postBad))

/-- C4 counterexample: for the well-formed JSON object with value
string containing a triple backtick, wrapped in fences with prose, the
recovery steps return a strict prefix of the payload (cut at the
backticks inside the string literal), not the embedded serialization,
so the strict JSON parse cannot recover the embedded object. -/
theorem c4_recovery_not_exact_on_backtick_payload :
    extractCand respBad = ['\x7b', '\x22', 'a', '\x22', ':', ' ', '\x22'] ∧
    (['\x7b', '\x22', 'a', '\x22', ':', ' ', '\x22'] : List Char) ≠ sBad := by
  have hTag : hasSub tagJson respBad = true := by decide
  have hsplitTag : splitOnSub tagJson respBad =
      [preBad, '\n' :: (sBad ++ '\n' :: (fence ++ '\n' :: postBad))] := by
    rw [show respBad = preBad ++ (tagJson ++ '\n' :: (sBad ++ '\n' :: (fence ++ '\n' :: postBad)))
        from by rw [respBad, List.append_assoc]]
    rw [splitOnSub_tag_append _ _ (by decide),
      splitOnSub_self_append tagJson _ (by simp [tagJson, fence]),
      splitOnSub_of_not_hasSub tagJson _ (by decide)]
    simp
  have hsplitFence : splitOnSub fence ('\n' :: (sBad ++ '\n' :: (fence ++ '\n' :: postBad))) =
      [['\n', '\x7b', '\x22', 'a', '\x22', ':', ' ', '\x22'], ['\x22', '\x7d', '\n'], '\n' :: postBad] := by
    rw [show '\n' :: (sBad ++ '\n' :: (fence ++ '\n' :: postBad)) =
        ['\n', '\x7b', '\x22', 'a', '\x22', ':', ' ', '\x22'] ++
          (fence ++ (['\x22', '\x7d', '\n'] ++ (fence ++ '\n' :: postBad))) from by decide]
    rw [splitOnSub_fence_append _ _ (by decide),
      splitOnSub_self_append fence _ (by simp [fence]),
      splitOnSub_fence_append _ _ (by decide),
      splitOnSub_self_append fence _ (by simp [fence]),
      splitOnSub_of_not_hasSub fence ('\n' :: postBad) (by decide)]
    simp
  constructor
  · unfold extractCand stripFencedBlock
    rw [if_pos hTag, hsplitTag]
    simp only [List.getD_cons_succ, List.getD_cons_zero]
    rw [hsplitFence]
    simp only [List.getD_cons_zero]
    decide
  · decide

/-- C4 (amended): for every JSON-object serialization `s` (brace
delimited, no surrounding whitespace) that contains no backtick,
wrapped in a triple-backtick code fence with or without the json
language tag and surrounded by backtick-free leading and trailing
prose, the recovery steps return exactly `s`, so the strict JSON parse
recovers exactly the embedded object. -/
theorem c4_recovery_roundtrip_amended (pre post s : List Char)
    (hpre : bq ∉ pre) (hpost : bq ∉ post) (hs : bq ∉ s)
    (hh : s.head? = some '\x7b') (hl : s.getLast? = some '\x7d') :
    extractCand (pre ++ tagJson ++ '\n' :: (s ++ '\n' :: (fence ++ '\n' :: post))) = s ∧
    extractCand (pre ++ fence ++ '\n' :: (s ++ '\n' :: (fence ++ '\n' :: post))) = s :=
  ⟨extractCand_tag_case pre post s hpre hpost hs hh hl,
    extractCand_fence_case pre post s hpre hpost hs hh hl⟩

/-- C4 witness: the amended round-trip at the concrete payload `{}`
with prose `A ` before and `.` after the fenced block. -/
theorem c4_recovery_roundtrip_witness :
    (bq ∉ (['A', ' '] : List Char) ∧ bq ∉ (['.'] : List Char) ∧
      bq ∉ (['\x7b', '\x7d'] : List Char) ∧
      (['\x7b', '\x7d'] : List Char).head? = some '\x7b' ∧
      (['\x7b', '\x7d'] : List Char).getLast? = some '\x7d') ∧
    (extractCand (['A', ' '] ++ tagJson ++ '\n' :: (['\x7b', '\x7d'] ++ '\n' :: (fence ++ '\n' :: ['.']))) =
        ['\x7b', '\x7d'] ∧
      extractCand (['A', ' '] ++ fence ++ '\n' :: (['\x7b', '\x7d'] ++ '\n' :: (fence ++ '\n' :: ['.']))) =
        ['\x7b', '\x7d']) :=
  ⟨⟨by decide, by decide, by decide, by decide, by decide⟩,
    c4_recovery_roundtrip_amended ['A', ' '] ['.'] ['\x7b', '\x7d']
      (by decide) (by decide) (by decide) (by decide) (by decide)⟩

/-! ### AI insights result handling (src/app.py lines 343-497) -/

/-- A JSON value of the shapes the AI-insights dicts contain. -/
inductive JVal where
  | s (v : String)
  | n (v : ℚ)
  | arr (v : List String)
deriving DecidableEq, Repr

/-- A JSON object / Python dict as an association list. -/
abbrev JDict : Type := List (String × JVal)

/-- The fixed fallback record returned on JSON parse failure
(src/app.py lines 478-497), field for field. -/
def fallbackInsights : JDict :=
  [("error", JVal.s "JSON parsing failed"),
   ("investment_thesis", JVal.s "Unable to parse AI response. Please try again."),
   ("investment_recommendation", JVal.s "HOLD"),
   ("valuation_assessment", JVal.s "Analysis incomplete"),
   ("key_strengths", JVal.arr ["Data provided", "Comprehensive information",
      "Clear metrics", "Established team"]),
   ("key_concerns", JVal.arr ["Technical analysis error", "Please retry",
      "Consider manual review", "System processing issue"]),
   ("due_diligence_priorities", JVal.arr ["Retry analysis", "Manual review", "Verify data"]),
   ("growth_potential", JVal.s "Requires reanalysis"),
   ("team_assessment", JVal.s "Team information provided"),
   ("market_timing", JVal.s "Market analysis pending"),
   ("competitive_position", JVal.s "Competitive data available"),
   ("financial_health", JVal.s "Financial metrics provided"),
   ("risk_assessment", JVal.s "MEDIUM - Analysis incomplete"),
   ("recommended_terms", JVal.s "Rerun analysis for recommendations"),
   ("post_investment_support", JVal.arr ["Technical review", "Strategic planning",
      "Market analysis"]),
   ("comparable_exits", JVal.s "Data pending"),
   ("investment_score", JVal.n 50)]

/-- Embedding of `generate_ai_insights` (src/app.py lines 343-497).
`raw` is the text content returned by the chat-completion collaborator
and `loads` abstracts the JSON library parser `json.loads` (`some` on
success, `none` on `JSONDecodeError`); both are the only channels
through which the collaborator and the parser influence the result.
The credential checks are `if not api_key` (empty string is falsy) and
`if not api_key.startswith(sk-)`.  The `.strip()` applied to the
response text is `pyStrip`, followed by the recovery pipeline
`extractCand`. -/
def generate_ai_insights (loads : List Char → Option JDict) (raw : List Char)
    (api_key : String) : JDict :=
  if api_key = "" then
    [("error", JVal.s "Please provide an OpenAI API key for Pro mode analysis.")]
  else if "sk-".toList.isPrefixOf api_key.toList = false then
    [("error", JVal.s "Invalid API key format. OpenAI API keys should start with \x27sk-\x27")]
  else
    match loads (extractCand (pyStrip raw)) with
    | some d => d
    | none => fallbackInsights

/-- Python `"error" in ai_insights`. -/
def hasKey (d : JDict) (k : String) : Bool :=
  d.any (fun p => p.1 == k)

/-- The submission handler reaction (src/app.py lines 1549-1551): an
error-keyed result is reported and then discarded (reset to the empty
dict), so its placeholder content is never displayed. -/
def handlerAiInsights (res : JDict) : JDict :=
  if hasKey res "error" then [] else res

/-- The PDF generator gate (src/app.py line 721): the AI section is
rendered only for a non-empty dict without the error key. -/
def pdfShowsAiSection (d : JDict) : Bool :=
  !d.isEmpty && !hasKey d "error"

theorem ne_empty_of_sk_key (k : String) (h : "sk-".toList.isPrefixOf k.toList = true) :
    k ≠ "" := by
  intro he
  rw [he] at h
  exact absurd h (by decide)

/-- C5: for every AI response whose text is not valid JSON after the
recovery heuristics, `generate_ai_insights` returns the single fixed
fallback record with deterministic placeholder values for every schema
field (e.g. recommendation HOLD and score 50), and the parse fault is
not raised to the caller (the embedded function is total and returns
the record). -/
theorem c5_parse_failure_returns_fallback (loads : List Char → Option JDict)
    (raw : List Char) (api_key : String)
    (hkey : "sk-".toList.isPrefixOf api_key.toList = true)
    (hfail : loads (extractCand (pyStrip raw)) = none) :
    generate_ai_insights loads raw api_key = fallbackInsights ∧
    List.lookup "investment_recommendation" fallbackInsights = some (JVal.s "HOLD") ∧
    List.lookup "investment_score" fallbackInsights = some (JVal.n 50) ∧
    List.lookup "investment_thesis" fallbackInsights =
      some (JVal.s "Unable to parse AI response. Please try again.") ∧
    List.lookup "risk_assessment" fallbackInsights =
      some (JVal.s "MEDIUM - Analysis incomplete") := by
  refine ⟨?_, by decide, by decide, by decide, by decide⟩
  unfold generate_ai_insights
  rw [if_neg (ne_empty_of_sk_key api_key hkey), if_neg (by rw [hkey]; simp), hfail]

/-- C5 witness: a parser that always fails on a blank response with a
well-formed key yields exactly the fallback record. -/
theorem c5_parse_failure_witness :
    (("sk-".toList.isPrefixOf "sk-test".toList = true) ∧
      ((fun _ : List Char => (none : Option JDict)) (extractCand (pyStrip [])) = none)) ∧
    (generate_ai_insights (fun _ => none) [] "sk-test" = fallbackInsights ∧
      List.lookup "investment_recommendation" fallbackInsights = some (JVal.s "HOLD") ∧
      List.lookup "investment_score" fallbackInsights = some (JVal.n 50) ∧
      List.lookup "investment_thesis" fallbackInsights =
        some (JVal.s "Unable to parse AI response. Please try again.") ∧
      List.lookup "risk_assessment" fallbackInsights =
        some (JVal.s "MEDIUM - Analysis incomplete")) :=
  ⟨⟨by decide, rfl⟩,
    c5_parse_failure_returns_fallback (fun _ => none) [] "sk-test" (by decide) rfl⟩

/-- C8: for every credential that is empty or does not start with sk-,
`generate_ai_insights` returns the credential-format error record and
its result does not depend on the collaborator response or on the
parser, i.e. the collaborator is never invoked. -/
theorem c8_bad_key_short_circuits (loads loads' : List Char → Option JDict)
    (raw raw' : List Char) (api_key : String)
    (hkey : "sk-".toList.isPrefixOf api_key.toList = false) :
    generate_ai_insights loads raw api_key = generate_ai_insights loads' raw' api_key ∧
    (api_key = "" →
      generate_ai_insights loads raw api_key =
        [("error", JVal.s "Please provide an OpenAI API key for Pro mode analysis.")]) ∧
    (api_key ≠ "" →
      generate_ai_insights loads raw api_key =
        [("error", JVal.s "Invalid API key format. OpenAI API keys should start with \x27sk-\x27")]) := by
  unfold generate_ai_insights
  by_cases h : api_key = ""
  · rw [if_pos h, if_pos h]
    exact ⟨rfl, fun _ => rfl, fun hne => absurd h hne⟩
  · rw [if_neg h, if_neg h, if_pos hkey, if_pos hkey]
    exact ⟨rfl, fun he => absurd he h, fun _ => rfl⟩

/-- C8 witness: the key abc is rejected with the format error,
identically for two different collaborator responses and parsers. -/
theorem c8_bad_key_witness :
    ("sk-".toList.isPrefixOf "abc".toList = false) ∧
    (generate_ai_insights (fun _ => some []) ['x'] "abc" =
        generate_ai_insights (fun _ => none) [] "abc" ∧
      ("abc" = "" →
        generate_ai_insights (fun _ => some []) ['x'] "abc" =
          [("error", JVal.s "Please provide an OpenAI API key for Pro mode analysis.")]) ∧
      ("abc" ≠ "" →
        generate_ai_insights (fun _ => some []) ['x'] "abc" =
          [("error", JVal.s "Invalid API key format. OpenAI API keys should start with \x27sk-\x27")])) :=
  ⟨by decide, c8_bad_key_short_circuits (fun _ => some []) (fun _ => none) ['x'] [] "abc" (by decide)⟩

/-- C9: the parse-failure fallback carries the error key with value
"JSON parsing failed", so the submission handler discards it (resets
the insights to the empty dict) and the PDF generator suppresses the
AI section. -/
theorem c9_fallback_flagged_as_error (loads : List Char → Option JDict)
    (raw : List Char) (api_key : String)
    (hkey : "sk-".toList.isPrefixOf api_key.toList = true)
    (hfail : loads (extractCand (pyStrip raw)) = none) :
    hasKey (generate_ai_insights loads raw api_key) "error" = true ∧
    List.lookup "error" (generate_ai_insights loads raw api_key) =
      some (JVal.s "JSON parsing failed") ∧
    handlerAiInsights (generate_ai_insights loads raw api_key) = [] ∧
    pdfShowsAiSection (generate_ai_insights loads raw api_key) = false := by
  have hgen : generate_ai_insights loads raw api_key = fallbackInsights := by
    unfold generate_ai_insights
    rw [if_neg (ne_empty_of_sk_key api_key hkey), if_neg (by rw [hkey]; simp), hfail]
  rw [hgen]
  refine ⟨by decide, by decide, ?_, by decide⟩
  unfold handlerAiInsights
  rw [if_pos (by decide)]

/-- C9 witness: at a concrete failing parse the fallback is classified
as an error result and discarded by both callers. -/
theorem c9_fallback_flagged_witness :
    (("sk-".toList.isPrefixOf "sk-w".toList = true) ∧
      ((fun _ : List Char => (none : Option JDict)) (extractCand (pyStrip ['y'])) = none)) ∧
    (hasKey (generate_ai_insights (fun _ => none) ['y'] "sk-w") "error" = true ∧
      List.lookup "error" (generate_ai_insights (fun _ => none) ['y'] "sk-w") =
        some (JVal.s "JSON parsing failed") ∧
      handlerAiInsights (generate_ai_insights (fun _ => none) ['y'] "sk-w") = [] ∧
      pdfShowsAiSection (generate_ai_insights (fun _ => none) ['y'] "sk-w") = false) :=
  ⟨⟨by decide, rfl⟩,
    c9_fallback_flagged_as_error (fun _ => none) ['y'] "sk-w" (by decide) rfl⟩
